import Mathlib

/-
Verification of the audit-trail export script (`export_audit_trail.py`).

The script fetches paginated audit events from a remote endpoint and
normalizes each nested JSON event into a flat CSV row.  This file gives a
shallow embedding of the script's pure core:

* `parse_event` / `parse_events` / `flatten_target` — the event normalizer;
* `get_events_batch` / `export_audit_trail` — the pagination driver,
  modelled as a fuel-indexed trace-producing function over an abstract
  transport (`requests.get` either raises, modelled as `Except.error`, or
  yields a `Response` whose body may or may not be valid JSON);
* `validate_and_format_timestamp` — the CLI date validation, with the
  machine's local UTC offset passed explicitly because the Python code
  calls `datetime.timestamp()` on a naive datetime.

JSON values that the script reads with `.get` are modelled as `Option`
fields where `none` stands for an absent key; Python exceptions are
modelled by `Option`/`Except` results.
-/

namespace AuditExport

/-- Model of the Python expression `a or b` for string-or-None values:
`None` and the empty string `""` are falsy, every other string is truthy. -/
def pyOr (a b : Option String) : Option String :=
  match a with
  | some s => if s = "" then b else some s
  | none => b

/-- An entity reference as it appears in the audit-event JSON: optional
`entityType`, `id` and `name` keys (`none` models an absent key). -/
structure EntityRef where
  entityType : Option String := none
  id : Option String := none
  name : Option String := none
deriving DecidableEq

/-- The `action` sub-object of a raw event; the script reads
`action.eventName`. -/
structure ActionData where
  eventName : Option String := none
deriving DecidableEq

/-- One entry of a target's `fieldChanges` list.  A missing `added` or
`removed` key is read by the script as `[]`, so both are plain lists. -/
structure FieldChange where
  fieldName : Option String := none
  fieldType : Option String := none
  before : Option String := none
  after : Option String := none
  unit : Option String := none
  added : List EntityRef := []
  removed : List EntityRef := []
deriving DecidableEq

/-- One entry of a raw event's `targets` list: the `entity` reference plus
the `fieldChanges` list. -/
structure Target where
  entity : EntityRef := {}
  fieldChanges : List FieldChange := []
deriving DecidableEq

/-- The free-form `metadata` mapping; the script only ever reads the keys
`command`, `query` and `schedule`. -/
structure Metadata where
  command : Option String := none
  query : Option String := none
  schedule : Option String := none
deriving DecidableEq

/-- A raw audit event as consumed by `parse_event`.  The field `inScope`
models the JSON key `in` (a Lean keyword).  `timestamp` is an `Option`
because the script accesses it with `raw_event['timestamp']`, which raises
`KeyError` when the key is absent. -/
structure RawEvent where
  timestamp : Option Nat := none
  actor : EntityRef := {}
  action : ActionData := {}
  inScope : EntityRef := {}
  targets : List Target := []
  affecting : List EntityRef := []
  metadata : Metadata := {}
deriving DecidableEq

/-- The flat record built by `parse_event`: the fixed dictionary of the
fifteen CSV columns, each possibly `None`.  Field order mirrors the dict
literal at the top of `parse_event`. -/
structure FlatRecord where
  utc_timestamp : Option String := none
  user_name : Option String := none
  event : Option String := none
  target_name : Option String := none
  project_name : Option String := none
  dataset_name : Option String := none
  file_name : Option String := none
  target_user : Option String := none
  feature_flag : Option String := none
  jobs : Option String := none
  old_value : Option String := none
  new_value : Option String := none
  added_value : Option String := none
  removed_value : Option String := none
  command : Option String := none
deriving DecidableEq

/-- Header constant `UTC_TIMESTAMP` of the script. -/
def UTC_TIMESTAMP : String := "DATE & TIME (UTC)"

/-- Header constant `USER_NAME` of the script. -/
def USER_NAME : String := "USER NAME"

/-- Header constant `EVENT` of the script. -/
def EVENT : String := "EVENT"

/-- Header constant `TARGET_NAME` of the script. -/
def TARGET_NAME : String := "TARGET NAME"

/-- Header constant `PROJECT_NAME` of the script. -/
def PROJECT_NAME : String := "PROJECT NAME"

/-- Header constant `DATASET_NAME` of the script. -/
def DATASET_NAME : String := "DATASET NAME"

/-- Header constant `FILE_NAME` of the script. -/
def FILE_NAME : String := "FILE NAME"

/-- Header constant `TARGET_USER` of the script. -/
def TARGET_USER : String := "TARGET USER"

/-- Header constant `FEATURE_FLAG` of the script. -/
def FEATURE_FLAG : String := "FEATURE FLAG"

/-- Header constant `OLD_VALUE` of the script. -/
def OLD_VALUE : String := "OLD VALUE"

/-- Header constant `NEW_VALUE` of the script. -/
def NEW_VALUE : String := "NEW VALUE"

/-- Header constant `ADDED_VALUE` of the script. -/
def ADDED_VALUE : String := "ADDED"

/-- Header constant `REMOVED_VALUE` of the script. -/
def REMOVED_VALUE : String := "REMOVED"

/-- Header constant `JOBS` of the script. -/
def JOBS : String := "JOBS"

/-- Header constant `COMMAND` of the script. -/
def COMMAND : String := "COMMAND"

/-- The fixed, ordered `CSV_HEADERS` list shared by `initialize_csv` and
`write_to_csv` (the `fieldnames` of both `csv.DictWriter` instances). -/
def CSV_HEADERS : List String :=
  [UTC_TIMESTAMP, USER_NAME, EVENT, TARGET_NAME, PROJECT_NAME, DATASET_NAME,
   FILE_NAME, TARGET_USER, FEATURE_FLAG, OLD_VALUE, NEW_VALUE, ADDED_VALUE,
   REMOVED_VALUE, JOBS, COMMAND]

/-- Dictionary lookup `parsed_event[header]`: the value a flat record holds
for a given column name (`none` for a name outside the schema). -/
def columnValue (r : FlatRecord) (header : String) : Option String :=
  if header = UTC_TIMESTAMP then r.utc_timestamp
  else if header = USER_NAME then r.user_name
  else if header = EVENT then r.event
  else if header = TARGET_NAME then r.target_name
  else if header = PROJECT_NAME then r.project_name
  else if header = DATASET_NAME then r.dataset_name
  else if header = FILE_NAME then r.file_name
  else if header = TARGET_USER then r.target_user
  else if header = FEATURE_FLAG then r.feature_flag
  else if header = OLD_VALUE then r.old_value
  else if header = NEW_VALUE then r.new_value
  else if header = ADDED_VALUE then r.added_value
  else if header = REMOVED_VALUE then r.removed_value
  else if header = JOBS then r.jobs
  else if header = COMMAND then r.command
  else none

/-- The CSV row `csv.DictWriter` emits for one record: the record's value
for each header of `CSV_HEADERS`, in `CSV_HEADERS` order. -/
def toRow (r : FlatRecord) : List (Option String) :=
  CSV_HEADERS.map (columnValue r)

/-- Left-pad the decimal representation of `n` with zeros to width `w`
(`strftime`-style zero padding). -/
def pad (w n : Nat) : String :=
  String.mk (List.replicate (w - (toString n).length) '0') ++ toString n

/-- Proleptic-Gregorian date of day number `days` since 1970-01-01 (the
standard `civil_from_days` algorithm, restricted to non-negative day
numbers): returns `(year, month, day)`. -/
def civilFromDays (days : Nat) : Nat × Nat × Nat :=
  let z := days + 719468
  let era := z / 146097
  let doe := z % 146097
  let yoe := (doe - doe / 1460 + doe / 36524 - doe / 146096) / 365
  let y := yoe + era * 400
  let doy := doe - (365 * yoe + yoe / 4 - yoe / 100)
  let mp := (5 * doy + 2) / 153
  let d := doy - (153 * mp + 2) / 5 + 1
  let m := if mp < 10 then mp + 3 else mp - 9
  (if m ≤ 2 then y + 1 else y, m, d)

/-- Model of `datetime.fromtimestamp(ms / 1000, UTC).strftime('%Y-%m-%d
%H:%M:%S')` for a non-negative epoch-millisecond value. -/
def formatUtcTimestamp (ms : Nat) : String :=
  let secs := ms / 1000
  let c := civilFromDays (secs / 86400)
  let sod := secs % 86400
  pad 4 c.1 ++ "-" ++ pad 2 c.2.1 ++ "-" ++ pad 2 c.2.2 ++ " " ++
    pad 2 (sod / 3600) ++ ":" ++ pad 2 (sod % 3600 / 60) ++ ":" ++ pad 2 (sod % 60)

/-- The flat dictionary `flatten_target` builds: the target entity's type
and display name, plus the fields of the first entry of `fieldChanges`
when that list is non-empty. -/
structure TargetData where
  entityType : Option String := none
  name : Option String := none
  fieldName : Option String := none
  fieldType : Option String := none
  before : Option String := none
  after : Option String := none
  unit : Option String := none
  added : Option String := none
  removed : Option String := none
deriving DecidableEq

/-- The list comprehension `[obj.get("name") for obj in objs]` as consumed
by `','.join(...)`: `join` raises `TypeError` as soon as one element is
`None`, so the result is `none` exactly when some entity lacks a name. -/
def getNames : List EntityRef → Option (List String)
  | [] => some []
  | o :: os =>
    match o.name, getNames os with
    | some n, some ns => some (n :: ns)
    | _, _ => none

/-- Model of `flatten_target`: extracts the target entity's type and
display name (`name` falling back to `id`), and, when `fieldChanges` is
non-empty, the first change's fields with `added`/`removed` rendered by
`','.join` over the entities' `name` keys.  Returns `none` when that join
raises (`TypeError` on a nameless entity). -/
def flatten_target (t : Target) : Option TargetData :=
  match t.fieldChanges with
  | [] => some { entityType := t.entity.entityType, name := t.entity.name <|> t.entity.id }
  | fc :: _ =>
    match getNames fc.added, getNames fc.removed with
    | some ns1, some ns2 =>
      some { entityType := t.entity.entityType,
             name := t.entity.name <|> t.entity.id,
             fieldName := fc.fieldName,
             fieldType := fc.fieldType,
             before := fc.before,
             after := fc.after,
             unit := fc.unit,
             added := some (String.intercalate "," ns1),
             removed := some (String.intercalate "," ns2) }
    | _, _ => none

/-- One iteration of the `for affecting in affecting_raw` loop of
`parse_event`: overwrite the dataset-name, target-user or file-name column
according to the entry's `entityType`. -/
def affectingStep (r : FlatRecord) (a : EntityRef) : FlatRecord :=
  if a.entityType = some "dataset" then
    { r with dataset_name := a.name <|> a.id }
  else if a.entityType = some "appliedUser" ∨ a.entityType = some "user" then
    { r with target_user := a.name <|> a.id }
  else if a.entityType = some "file" then
    { r with file_name := a.name }
  else r

/-- The `if targets_raw:` block of `parse_event` after `flatten_target`
succeeded: copy target name / before / after / added / removed, then apply
the entity-type-specific branch of the `if/elif` chain. -/
def applyTarget (e : RawEvent) (r : FlatRecord) (td : TargetData) : FlatRecord :=
  let r1 : FlatRecord :=
    { r with target_name := td.name, old_value := td.before, new_value := td.after,
             added_value := td.added, removed_value := td.removed }
  if td.entityType = some "user" then
    { r1 with target_user := td.name }
  else if td.entityType = some "dataset" ∨ td.entityType = some "datasetSnapshot" then
    let r2 : FlatRecord := { r1 with dataset_name := td.name }
    if td.fieldName = some "filePath" then { r2 with file_name := td.after } else r2
  else if td.entityType = some "scheduledRun" ∨ td.entityType = some "job" then
    { r1 with jobs := td.name, command := e.metadata.command,
              new_value := pyOr e.metadata.schedule td.after }
  else if td.entityType = some "featureFlag" then
    { r1 with feature_flag := td.name }
  else r1

/-- The first assignments of `parse_event`: timestamp, user name, event
name, and project name (set only when the `in` scope is a project). -/
def baseRecord (e : RawEvent) (ts : Nat) : FlatRecord :=
  { utc_timestamp := some (formatUtcTimestamp ts),
    user_name := e.actor.name <|> e.actor.id,
    event := e.action.eventName,
    project_name :=
      if e.inScope.entityType = some "project" then e.inScope.name <|> e.inScope.id
      else none }

/-- The tail of `parse_event`: the loop over `event.affecting` followed by
the final `COMMAND = COMMAND or metadata.query` assignment. -/
def finishRecord (e : RawEvent) (r : FlatRecord) : FlatRecord :=
  let r2 := e.affecting.foldl affectingStep r
  { r2 with command := pyOr r2.command e.metadata.query }

/-- Model of `parse_event`: normalizes one raw event to a flat record.
Returns `none` exactly where the Python function raises: on a missing
`timestamp` key (`KeyError`) and on a `','.join` over a nameless
added/removed entity of the first target's first field change
(`TypeError`). -/
def parse_event (e : RawEvent) : Option FlatRecord :=
  match e.timestamp with
  | none => none
  | some ts =>
    match e.targets with
    | [] => some (finishRecord e (baseRecord e ts))
    | t :: _ =>
      match flatten_target t with
      | none => none
      | some td => some (finishRecord e (applyTarget e (baseRecord e ts) td))

/-- Model of `parse_events`: normalize a page of raw events in order; the
first exception aborts the whole page. -/
def parse_events : List RawEvent → Option (List FlatRecord)
  | [] => some []
  | e :: es =>
    match parse_event e, parse_events es with
    | some r, some rs => some (r :: rs)
    | _, _ => none

/-- The fixed page size `BATCH_LIMIT` of the script. -/
def BATCH_LIMIT : Nat := 1000

/-- The JSON body of a response, as far as the script reads it: the
optional `events` key (`data.get('events', [])`). -/
structure RespData where
  events : Option (List RawEvent) := none
deriving DecidableEq

/-- An HTTP response from the audit endpoint: its status code and its
body, `none` when the body is not valid JSON (so `response.json()`
raises). -/
structure Response where
  status : Nat := 200
  body : Option RespData := none
deriving DecidableEq

/-- The two ways the script's fetch can raise: `requests.get` itself
failing, or `response.json()` failing to decode the body. -/
inductive TransportError where
  | connectionError
  | jsonDecodeError
deriving DecidableEq

/-- Model of `get_events_batch`: issue the request through the abstract
`transport` (a `.error` result models a raised `requests` exception) and
decode the body with `response.json()`.  The response's status code is
never inspected — the script calls no `raise_for_status` and performs no
status check. -/
def get_events_batch (transport : Nat → Except Unit Response) (offset : Nat) :
    Except TransportError RespData :=
  match transport offset with
  | .error _ => .error .connectionError
  | .ok resp =>
    match resp.body with
    | none => .error .jsonDecodeError
    | some d => .ok d

/-- The observable steps of one export run: a fetch at a given offset, or
a `write_to_csv` of one page of parsed records. -/
inductive Action where
  | fetch (offset : Nat)
  | write (records : List FlatRecord)
deriving DecidableEq

/-- How one export run ends: normal completion, a propagated transport or
JSON exception, a propagated normalizer exception — or fuel exhaustion,
the artifact marking runs longer than the supplied fuel. -/
inductive RunResult where
  | done
  | transportError (err : TransportError)
  | parseError
  | fuelExhausted
deriving DecidableEq

/-- Model of the `while keep_extracting` loop of `export_audit_trail`:
fetch one page, normalize it, write it, then stop if the page is short and
otherwise recurse at `offset + BATCH_LIMIT`.  The loop is indexed by fuel
because the Python loop is unbounded; `fuelExhausted` marks runs needing
more iterations.  The returned list is the ordered trace of fetches and
writes the run performed before its result. -/
def export_audit_trail (transport : Nat → Except Unit Response) :
    Nat → Nat → List Action × RunResult
  | _, 0 => ([], RunResult.fuelExhausted)
  | offset, fuel + 1 =>
    match get_events_batch transport offset with
    | .error err => ([Action.fetch offset], RunResult.transportError err)
    | .ok data =>
      let raw_events := data.events.getD []
      match parse_events raw_events with
      | none => ([Action.fetch offset], RunResult.parseError)
      | some parsed =>
        if raw_events.length < BATCH_LIMIT then
          ([Action.fetch offset, Action.write parsed], RunResult.done)
        else
          let next := export_audit_trail transport (offset + BATCH_LIMIT) fuel
          (Action.fetch offset :: Action.write parsed :: next.1, next.2)

/-- The last entry of a list satisfying `p`, if any: later entries take
precedence over earlier ones (the value a source-order overwrite loop
leaves behind). -/
def lastMatch (p : EntityRef → Prop) [DecidablePred p] : List EntityRef → Option EntityRef
  | [] => none
  | a :: es =>
    match lastMatch p es with
    | some b => some b
    | none => if p a then some a else none

/-- Whether normalizing this event runs `','.join` over a list containing
a nameless entity (the `TypeError` condition): the event has a target, its
first target has a field change, and some entity of that change's
`added`/`removed` lists lacks a `name`. -/
def target_joinBlocked (t : Target) : Bool :=
  match t.fieldChanges with
  | [] => false
  | fc :: _ =>
    (fc.added.any fun o => o.name.isNone) || (fc.removed.any fun o => o.name.isNone)

/-- The `TypeError` condition lifted to a whole raw event (only the first
target is ever flattened). -/
def joinBlocked (e : RawEvent) : Bool :=
  match e.targets with
  | [] => false
  | t :: _ => target_joinBlocked t

/-- A minimal raw event: only the mandatory timestamp is present. -/
def ev0 : RawEvent := { timestamp := some 0 }

/-- The flat record `parse_event` produces for `ev0`. -/
def r0 : FlatRecord := { utc_timestamp := some "1970-01-01 00:00:00" }

/-- A full page: exactly `BATCH_LIMIT` copies of the minimal event. -/
def fullPage : List RawEvent := List.replicate BATCH_LIMIT ev0

/-- The parsed form of `fullPage`. -/
def fullRecords : List FlatRecord := List.replicate BATCH_LIMIT r0

/-- A fetch stub returning pages of sizes `[BATCH_LIMIT, BATCH_LIMIT, 0]`:
full pages at offsets 0 and `BATCH_LIMIT`, an empty page elsewhere. -/
def w2transport : Nat → Except Unit Response := fun offset =>
  if offset = 0 ∨ offset = BATCH_LIMIT then
    .ok { status := 200, body := some { events := some fullPage } }
  else .ok { status := 200, body := some { events := some [] } }

/-- A fetch stub whose remote call succeeds at offset 0 with a full page
and raises at every other offset. -/
def w6transport : Nat → Except Unit Response := fun offset =>
  if offset = 0 then .ok { status := 200, body := some { events := some fullPage } }
  else .error ()

/-- A fetch stub always answering with HTTP status 500 and a JSON body
with no `events` key. -/
def status500Transport : Nat → Except Unit Response :=
  fun _ => .ok { status := 500, body := some { events := none } }

/-- An event whose first target's first field change references an entity
that has an id but no name in its `added` list. -/
def evNamelessAdded : RawEvent :=
  { timestamp := some 0,
    targets := [{ entity := {}, fieldChanges := [{ added := [{ id := some "x" }] }] }] }

/-- A target whose first field change's `added` list holds an entity with
an id but no name. -/
def tC4bad : Target := { fieldChanges := [{ added := [{ id := some "ent-1" }] }] }

/-- A target whose first field change adds three named entities and
removes none. -/
def tW4 : Target :=
  { entity := { entityType := some "dataset", name := some "D" },
    fieldChanges := [{ fieldName := some "f",
                       added := [{ name := some "a" }, { name := some "b" },
                                 { name := some "c" }] }] }

/-- The job-target entry of `evW5`. -/
def tW5 : Target :=
  { entity := { entityType := some "job", name := some "my-job" },
    fieldChanges := [{ after := some "new-sched" }] }

/-- An event with a job target, a field change, and command, query and
schedule metadata all present and non-empty. -/
def evW5 : RawEvent :=
  { timestamp := some 0, targets := [tW5],
    metadata := { command := some "run.sh", query := some "q",
                  schedule := some "0 5 * * *" } }

/-- The flat record `parse_event` produces for `evW5`. -/
def rW5 : FlatRecord :=
  { utc_timestamp := some "1970-01-01 00:00:00", target_name := some "my-job",
    jobs := some "my-job", new_value := some "0 5 * * *", added_value := some "",
    removed_value := some "", command := some "run.sh" }

/-- The job-target entry of `evC5bad`. -/
def tC5bad : Target :=
  { entity := { entityType := some "job", name := some "J" },
    fieldChanges := [{ after := some "A" }] }

/-- An event with a job target whose metadata has an empty-string schedule,
no command, and a query. -/
def evC5bad : RawEvent :=
  { timestamp := some 0, targets := [tC5bad],
    metadata := { query := some "q", schedule := some "" } }

/-- An event whose containing scope is a project carrying only an id. -/
def evW9 : RawEvent :=
  { timestamp := some 0, inScope := { entityType := some "project", id := some "p-1" } }

/-- The flat record `parse_event` produces for `evW9`. -/
def rW9 : FlatRecord :=
  { utc_timestamp := some "1970-01-01 00:00:00", project_name := some "p-1" }

end AuditExport

namespace AuditExport

theorem affectingStep_project_name (r : FlatRecord) (a : EntityRef) :
    (affectingStep r a).project_name = r.project_name := by
  unfold affectingStep; split_ifs <;> rfl

theorem affectingStep_jobs (r : FlatRecord) (a : EntityRef) :
    (affectingStep r a).jobs = r.jobs := by
  unfold affectingStep; split_ifs <;> rfl

theorem affectingStep_command (r : FlatRecord) (a : EntityRef) :
    (affectingStep r a).command = r.command := by
  unfold affectingStep; split_ifs <;> rfl

theorem affectingStep_new_value (r : FlatRecord) (a : EntityRef) :
    (affectingStep r a).new_value = r.new_value := by
  unfold affectingStep; split_ifs <;> rfl

theorem affectingStep_dataset_name (r : FlatRecord) (a : EntityRef) :
    (affectingStep r a).dataset_name =
      if a.entityType = some "dataset" then a.name <|> a.id else r.dataset_name := by
  unfold affectingStep; split_ifs <;> rfl

theorem affectingStep_target_user (r : FlatRecord) (a : EntityRef) :
    (affectingStep r a).target_user =
      if a.entityType = some "appliedUser" ∨ a.entityType = some "user" then a.name <|> a.id
      else r.target_user := by
  unfold affectingStep; split_ifs <;> first | rfl | simp_all

theorem affectingStep_file_name (r : FlatRecord) (a : EntityRef) :
    (affectingStep r a).file_name =
      if a.entityType = some "file" then a.name else r.file_name := by
  unfold affectingStep; split_ifs <;> first | rfl | simp_all

theorem foldl_affectingStep_project_name (es : List EntityRef) (r : FlatRecord) :
    (es.foldl affectingStep r).project_name = r.project_name := by
  induction es generalizing r with
  | nil => rfl
  | cons a es ih => rw [List.foldl_cons, ih, affectingStep_project_name]

theorem foldl_affectingStep_jobs (es : List EntityRef) (r : FlatRecord) :
    (es.foldl affectingStep r).jobs = r.jobs := by
  induction es generalizing r with
  | nil => rfl
  | cons a es ih => rw [List.foldl_cons, ih, affectingStep_jobs]

theorem foldl_affectingStep_command (es : List EntityRef) (r : FlatRecord) :
    (es.foldl affectingStep r).command = r.command := by
  induction es generalizing r with
  | nil => rfl
  | cons a es ih => rw [List.foldl_cons, ih, affectingStep_command]

theorem foldl_affectingStep_new_value (es : List EntityRef) (r : FlatRecord) :
    (es.foldl affectingStep r).new_value = r.new_value := by
  induction es generalizing r with
  | nil => rfl
  | cons a es ih => rw [List.foldl_cons, ih, affectingStep_new_value]

theorem foldl_affectingStep_dataset_name (es : List EntityRef) (r : FlatRecord) :
    (es.foldl affectingStep r).dataset_name =
      ((lastMatch (fun a => a.entityType = some "dataset") es).map
        (fun a => a.name <|> a.id)).getD r.dataset_name := by
  induction es generalizing r with
  | nil => rfl
  | cons a es ih =>
    rw [List.foldl_cons, ih]
    cases h : lastMatch (fun a => a.entityType = some "dataset") es with
    | some b => simp [lastMatch, h]
    | none =>
      by_cases hp : a.entityType = some "dataset" <;>
        simp [lastMatch, h, hp, affectingStep_dataset_name]

theorem foldl_affectingStep_target_user (es : List EntityRef) (r : FlatRecord) :
    (es.foldl affectingStep r).target_user =
      ((lastMatch (fun a => a.entityType = some "appliedUser" ∨ a.entityType = some "user") es).map
        (fun a => a.name <|> a.id)).getD r.target_user := by
  induction es generalizing r with
  | nil => rfl
  | cons a es ih =>
    rw [List.foldl_cons, ih]
    cases h : lastMatch (fun a => a.entityType = some "appliedUser" ∨ a.entityType = some "user") es with
    | some b => simp [lastMatch, h]
    | none =>
      by_cases hp : a.entityType = some "appliedUser" ∨ a.entityType = some "user" <;>
        simp [lastMatch, h, hp, affectingStep_target_user]

theorem foldl_affectingStep_file_name (es : List EntityRef) (r : FlatRecord) :
    (es.foldl affectingStep r).file_name =
      ((lastMatch (fun a => a.entityType = some "file") es).map
        (fun a => a.name)).getD r.file_name := by
  induction es generalizing r with
  | nil => rfl
  | cons a es ih =>
    rw [List.foldl_cons, ih]
    cases h : lastMatch (fun a => a.entityType = some "file") es with
    | some b => simp [lastMatch, h]
    | none =>
      by_cases hp : a.entityType = some "file" <;>
        simp [lastMatch, h, hp, affectingStep_file_name]

/-- C3: the normalizer's affecting loop visits all entries in order; an
entry with entityType `dataset` overwrites the dataset-name column, one
with `appliedUser`/`user` the target-user column, one with `file` the
file-name column, and when several entries map to the same column the last
such entry's value is the one that remains (last-write-wins). -/
theorem C3_affecting_last_write_wins (e : RawEvent) (r : FlatRecord) :
    (e.affecting.foldl affectingStep r).dataset_name =
      ((lastMatch (fun a => a.entityType = some "dataset") e.affecting).map
        (fun a => a.name <|> a.id)).getD r.dataset_name ∧
    (e.affecting.foldl affectingStep r).target_user =
      ((lastMatch (fun a => a.entityType = some "appliedUser" ∨ a.entityType = some "user")
          e.affecting).map (fun a => a.name <|> a.id)).getD r.target_user ∧
    (e.affecting.foldl affectingStep r).file_name =
      ((lastMatch (fun a => a.entityType = some "file") e.affecting).map
        (fun a => a.name)).getD r.file_name :=
  ⟨foldl_affectingStep_dataset_name e.affecting r,
   foldl_affectingStep_target_user e.affecting r,
   foldl_affectingStep_file_name e.affecting r⟩

/-- C10: an affecting entry of entityType `file` sets the file-name column
from its `name` key only, with no fallback to `id`, unlike `dataset` and
`appliedUser`/`user` entries whose columns fall back to the entry's id
when the name is absent. -/
theorem C10_affecting_file_no_id_fallback (r : FlatRecord) (a : EntityRef) :
    (a.entityType = some "file" → (affectingStep r a).file_name = a.name) ∧
    (a.entityType = some "dataset" →
      (affectingStep r a).dataset_name = (a.name <|> a.id)) ∧
    ((a.entityType = some "appliedUser" ∨ a.entityType = some "user") →
      (affectingStep r a).target_user = (a.name <|> a.id)) := by
  refine ⟨fun h => ?_, fun h => ?_, fun h => ?_⟩
  · rw [affectingStep_file_name]; simp [h]
  · rw [affectingStep_dataset_name]; simp [h]
  · rw [affectingStep_target_user]; simp [h]

/-- C10 witness: a nameless affecting file entity with an id leaves the
file-name column null, while a nameless affecting dataset entity with the
same shape fills the dataset-name column with the id. -/
theorem C10_witness :
    (affectingStep {} { entityType := some "file", id := some "f-1" }).file_name = none ∧
    (affectingStep {} { entityType := some "dataset", id := some "d-1" }).dataset_name =
      some "d-1" :=
  ⟨(C10_affecting_file_no_id_fallback {} { entityType := some "file", id := some "f-1" }).1 rfl,
   (C10_affecting_file_no_id_fallback {} { entityType := some "dataset", id := some "d-1" }).2.1 rfl⟩

theorem getNames_isSome (os : List EntityRef) :
    (getNames os).isSome = !(os.any fun o => o.name.isNone) := by
  induction os with
  | nil => rfl
  | cons o os ih =>
    cases h : o.name with
    | none => simp [getNames, h]
    | some n =>
      cases hg : getNames os with
      | none => rw [hg] at ih; simp [getNames, h, hg, ← ih]
      | some ns => rw [hg] at ih; simp [getNames, h, hg, ← ih]

theorem flatten_target_isSome (t : Target) :
    (flatten_target t).isSome = !target_joinBlocked t := by
  unfold flatten_target target_joinBlocked
  cases hfc : t.fieldChanges with
  | nil => rfl
  | cons fc rest =>
    have ha := getNames_isSome fc.added
    have hb := getNames_isSome fc.removed
    cases hga : getNames fc.added <;> cases hgr : getNames fc.removed <;>
      rw [hga] at ha <;> rw [hgr] at hb <;> simp_all

/-- C1 (amended): normalization returns a flat record exactly when the
event has a `timestamp` key and no `','.join` over a nameless added or
removed entity is reached; every other missing or absent field (missing
actor, targets whose entities lack a name, missing metadata, and so on)
degrades to a null/empty column value rather than aborting.  A missing
timestamp raises `KeyError` (direct indexing) and a nameless entity in the
first target's first field change's added/removed lists raises `TypeError`
inside the join. -/
theorem C1_normalize_totality (e : RawEvent) :
    (parse_event e).isSome = (e.timestamp.isSome && !joinBlocked e) := by
  obtain ⟨ts, actor, action, inScope, targets, affecting, metadata⟩ := e
  cases ts with
  | none => rfl
  | some ts =>
    cases targets with
    | nil => rfl
    | cons t rest =>
      have h := flatten_target_isSome t
      cases hft : flatten_target t <;> rw [hft] at h <;>
        simp_all [parse_event, joinBlocked]

/-- C1 counterexample: an event with no timestamp key makes normalization
raise (`KeyError`), and an event whose first target's first field change
adds an entity that has an id but no name makes it raise as well
(`TypeError` in `','.join`) — neither degrades to a null column value. -/
theorem C1_counterexample :
    parse_event {} = none ∧ parse_event evNamelessAdded = none :=
  ⟨rfl, rfl⟩

theorem applyTarget_project_name (e : RawEvent) (r : FlatRecord) (td : TargetData) :
    (applyTarget e r td).project_name = r.project_name := by
  unfold applyTarget; split_ifs <;> rfl

theorem finishRecord_project_name (e : RawEvent) (r : FlatRecord) :
    (finishRecord e r).project_name = r.project_name := by
  unfold finishRecord
  exact foldl_affectingStep_project_name e.affecting r

/-- C9: the project-name column is the containing scope's name (falling
back to its id) when the scope's entityType is `project`, and is left null
for every other entityType or absent scope; neither the target projection
nor the affecting loop ever writes it. -/
theorem C9_project_scope (e : RawEvent) (r : FlatRecord) (h : parse_event e = some r) :
    r.project_name =
      (if e.inScope.entityType = some "project" then e.inScope.name <|> e.inScope.id
       else none) := by
  unfold parse_event at h
  cases hts : e.timestamp with
  | none => rw [hts] at h; exact absurd h (by simp)
  | some ts =>
    rw [hts] at h
    cases htg : e.targets with
    | nil =>
      rw [htg] at h
      injection h with h
      rw [← h, finishRecord_project_name]
      rfl
    | cons t rest =>
      rw [htg] at h
      dsimp only at h
      cases hft : flatten_target t with
      | none => rw [hft] at h; exact absurd h (by simp)
      | some td =>
        rw [hft] at h
        injection h with h
        rw [← h, finishRecord_project_name, applyTarget_project_name]
        rfl

/-- C9 witness: a project scope carrying only an id puts that id in the
project-name column. -/
theorem C9_witness : rW9.project_name = some "p-1" :=
  C9_project_scope evW9 rW9 rfl

/-- C7: every flat record produced by normalization carries exactly the
fixed closed set of fifteen columns, each present possibly with a null
value, and the serialized row is the record's values in the fixed
`CSV_HEADERS` order, identical for every record of an export run. -/
theorem C7_fixed_columns (e : RawEvent) (r : FlatRecord) (_h : parse_event e = some r) :
    toRow r = [r.utc_timestamp, r.user_name, r.event, r.target_name, r.project_name,
      r.dataset_name, r.file_name, r.target_user, r.feature_flag, r.old_value,
      r.new_value, r.added_value, r.removed_value, r.jobs, r.command] ∧
    CSV_HEADERS.length = 15 :=
  ⟨rfl, rfl⟩

/-- C7 witness: the row serialized for the record of a minimal event. -/
theorem C7_witness :
    toRow r0 = [some "1970-01-01 00:00:00", none, none, none, none, none, none, none,
      none, none, none, none, none, none, none] ∧
    CSV_HEADERS.length = 15 :=
  C7_fixed_columns ev0 r0 rfl

/-- C4 (amended): for a target with a non-empty fieldChanges list whose
first change's added and removed entities all carry a `name`, the
flattener extracts the first change's fieldName, fieldType, before, after
and unit, and renders added/removed as the comma-joined `name` values of
the referenced entities — the names only, with no fallback to id — with a
single comma between consecutive names, no trailing separator, and the
empty string (not null) for an empty list; an entity without a name makes
the join raise instead. -/
theorem C4_flatten_added_removed (t : Target) (fc : FieldChange)
    (rest : List FieldChange) (ns1 ns2 : List String)
    (hfc : t.fieldChanges = fc :: rest)
    (hadd : getNames fc.added = some ns1)
    (hrem : getNames fc.removed = some ns2) :
    flatten_target t =
      some { entityType := t.entity.entityType, name := t.entity.name <|> t.entity.id,
             fieldName := fc.fieldName, fieldType := fc.fieldType, before := fc.before,
             after := fc.after, unit := fc.unit,
             added := some (String.intercalate "," ns1),
             removed := some (String.intercalate "," ns2) } := by
  unfold flatten_target
  rw [hfc]
  dsimp only
  rw [hadd, hrem]

/-- C4 counterexample: a target whose first change's added list holds an
entity with id `ent-1` and no name makes the flattener raise (`TypeError`
inside `','.join`) instead of rendering the entity's display name, even
though the display name (name falling back to id) of that entity is
`ent-1`. -/
theorem C4_counterexample :
    flatten_target tC4bad = none ∧
    (({ id := some "ent-1" } : EntityRef).name <|>
      ({ id := some "ent-1" } : EntityRef).id) = some "ent-1" :=
  ⟨rfl, rfl⟩

/-- C4 witness: three named added entities render as the three names
joined by single commas with no trailing separator, and an empty removed
list renders as the empty string, not null. -/
theorem C4_witness :
    flatten_target tW4 =
      some { entityType := some "dataset", name := some "D", fieldName := some "f",
             added := some "a,b,c", removed := some "" } :=
  C4_flatten_added_removed tW4
    { fieldName := some "f",
      added := [{ name := some "a" }, { name := some "b" }, { name := some "c" }] }
    [] ["a", "b", "c"] [] rfl rfl rfl

theorem flatten_target_fields (t : Target) (td : TargetData)
    (h : flatten_target t = some td) :
    td.entityType = t.entity.entityType ∧
    td.name = (t.entity.name <|> t.entity.id) ∧
    td.after = (match t.fieldChanges with | [] => none | fc :: _ => fc.after) := by
  unfold flatten_target at h
  cases hfc : t.fieldChanges with
  | nil =>
    rw [hfc] at h
    dsimp only at h
    injection h with h
    rw [← h]
    exact ⟨rfl, rfl, rfl⟩
  | cons fc rest =>
    rw [hfc] at h
    dsimp only at h
    cases hga : getNames fc.added with
    | none => rw [hga] at h; exact absurd h (by simp)
    | some ns1 =>
      cases hgr : getNames fc.removed with
      | none => rw [hga, hgr] at h; exact absurd h (by simp)
      | some ns2 =>
        rw [hga, hgr] at h
        injection h with h
        rw [← h]
        exact ⟨rfl, rfl, rfl⟩

theorem applyTarget_job (e : RawEvent) (r : FlatRecord) (td : TargetData)
    (h : td.entityType = some "scheduledRun" ∨ td.entityType = some "job") :
    (applyTarget e r td).jobs = td.name ∧
    (applyTarget e r td).command = e.metadata.command ∧
    (applyTarget e r td).new_value = pyOr e.metadata.schedule td.after := by
  unfold applyTarget
  split_ifs <;> first | exact ⟨rfl, rfl, rfl⟩ | (rcases h with h | h <;> simp_all)

theorem finishRecord_jobs (e : RawEvent) (r : FlatRecord) :
    (finishRecord e r).jobs = r.jobs := by
  unfold finishRecord
  exact foldl_affectingStep_jobs e.affecting r

theorem finishRecord_new_value (e : RawEvent) (r : FlatRecord) :
    (finishRecord e r).new_value = r.new_value := by
  unfold finishRecord
  exact foldl_affectingStep_new_value e.affecting r

theorem finishRecord_command (e : RawEvent) (r : FlatRecord) :
    (finishRecord e r).command = pyOr r.command e.metadata.query := by
  unfold finishRecord
  dsimp only
  rw [foldl_affectingStep_command]

/-- C5 (amended): for an event whose first target has entityType
`scheduledRun` or `job`, normalization sets the jobs column to the
target's display name and the new-value column to the first field change's
after value unless `metadata.schedule` is present and non-empty (Python
truthiness), in which case the schedule overrides it; the command column
receives `metadata.command`, which the final assignment replaces by
`metadata.query` when the command is absent or empty. -/
theorem C5_job_target_projection (e : RawEvent) (t : Target) (rest : List Target)
    (r : FlatRecord)
    (ht : e.targets = t :: rest)
    (hty : t.entity.entityType = some "scheduledRun" ∨ t.entity.entityType = some "job")
    (h : parse_event e = some r) :
    r.jobs = (t.entity.name <|> t.entity.id) ∧
    r.command = pyOr e.metadata.command e.metadata.query ∧
    r.new_value = pyOr e.metadata.schedule
      (match t.fieldChanges with | [] => none | fc :: _ => fc.after) := by
  unfold parse_event at h
  cases hts : e.timestamp with
  | none => rw [hts] at h; exact absurd h (by simp)
  | some ts =>
    rw [hts, ht] at h
    dsimp only at h
    cases hft : flatten_target t with
    | none => rw [hft] at h; exact absurd h (by simp)
    | some td =>
      rw [hft] at h
      injection h with h
      obtain ⟨h1, h2, h3⟩ := flatten_target_fields t td hft
      obtain ⟨j1, j2, j3⟩ := applyTarget_job e (baseRecord e ts) td (by rw [h1]; exact hty)
      refine ⟨?_, ?_, ?_⟩
      · rw [← h, finishRecord_jobs, j1, h2]
      · rw [← h, finishRecord_command, j2]
      · rw [← h, finishRecord_new_value, j3, h3]

/-- C5 counterexample: with a job target whose field change has after `A`,
`metadata.schedule` present but equal to the empty string, and no
`metadata.command` but a `metadata.query`, the new-value column keeps `A`
(the empty schedule does not override) and the command column holds the
query, not the absent command — presence is not what the code tests,
truthiness is. -/
theorem C5_counterexample :
    (parse_event evC5bad).map FlatRecord.new_value = some (some "A") ∧
    (parse_event evC5bad).map FlatRecord.command = some (some "q") ∧
    evC5bad.metadata.schedule = some "" ∧
    evC5bad.metadata.command = none :=
  ⟨rfl, rfl, rfl, rfl⟩

/-- C5 witness: a job target named `my-job` with after value `new-sched`,
command `run.sh`, query `q` and non-empty schedule `0 5 * * *` yields jobs
`my-job`, command `run.sh` and new value `0 5 * * *`. -/
theorem C5_witness :
    rW5.jobs = some "my-job" ∧
    rW5.command = pyOr evW5.metadata.command evW5.metadata.query ∧
    rW5.new_value = pyOr evW5.metadata.schedule
      (match tW5.fieldChanges with | [] => none | fc :: _ => fc.after) :=
  C5_job_target_projection evW5 tW5 [] rW5 rfl (Or.inr rfl) rfl

theorem export_stop (transport : Nat → Except Unit Response) (offset f : Nat)
    (p : List RawEvent) (q : List FlatRecord)
    (hb : get_events_batch transport offset = .ok { events := some p })
    (hp : parse_events p = some q) (hl : p.length < BATCH_LIMIT) :
    export_audit_trail transport offset (f + 1) =
      ([Action.fetch offset, Action.write q], RunResult.done) := by
  rw [show f + 1 = f + 1 from rfl]
  simp only [export_audit_trail]
  rw [hb]
  dsimp only [Option.getD]
  rw [hp]
  dsimp only
  rw [if_pos hl]

theorem export_continue (transport : Nat → Except Unit Response) (offset f : Nat)
    (p : List RawEvent) (q : List FlatRecord)
    (hb : get_events_batch transport offset = .ok { events := some p })
    (hp : parse_events p = some q) (hl : ¬p.length < BATCH_LIMIT) :
    export_audit_trail transport offset (f + 1) =
      (Action.fetch offset :: Action.write q ::
        (export_audit_trail transport (offset + BATCH_LIMIT) f).1,
       (export_audit_trail transport (offset + BATCH_LIMIT) f).2) := by
  simp only [export_audit_trail]
  rw [hb]
  dsimp only [Option.getD]
  rw [hp]
  dsimp only
  rw [if_neg hl]

theorem export_three_pages (transport : Nat → Except Unit Response) (f : Nat)
    (p0 p1 p2 : List RawEvent) (q0 q1 q2 : List FlatRecord)
    (h0 : get_events_batch transport 0 = .ok { events := some p0 })
    (h1 : get_events_batch transport BATCH_LIMIT = .ok { events := some p1 })
    (h2 : get_events_batch transport (2 * BATCH_LIMIT) = .ok { events := some p2 })
    (hl0 : p0.length = BATCH_LIMIT) (hl1 : p1.length = BATCH_LIMIT)
    (hl2 : p2.length < BATCH_LIMIT)
    (hp0 : parse_events p0 = some q0) (hp1 : parse_events p1 = some q1)
    (hp2 : parse_events p2 = some q2) :
    export_audit_trail transport 0 (f + 3) =
      ([Action.fetch 0, Action.write q0, Action.fetch BATCH_LIMIT, Action.write q1,
        Action.fetch (2 * BATCH_LIMIT), Action.write q2], RunResult.done) := by
  have e1 : export_audit_trail transport 0 (f + 3) =
      (Action.fetch 0 :: Action.write q0 ::
        (export_audit_trail transport BATCH_LIMIT (f + 2)).1,
       (export_audit_trail transport BATCH_LIMIT (f + 2)).2) := by
    have h := export_continue transport 0 (f + 2) p0 q0 h0 hp0 (by omega)
    rw [Nat.zero_add] at h
    exact h
  have e2 : export_audit_trail transport BATCH_LIMIT (f + 2) =
      (Action.fetch BATCH_LIMIT :: Action.write q1 ::
        (export_audit_trail transport (2 * BATCH_LIMIT) (f + 1)).1,
       (export_audit_trail transport (2 * BATCH_LIMIT) (f + 1)).2) := by
    have h := export_continue transport BATCH_LIMIT (f + 1) p1 q1 h1 hp1 (by omega)
    rw [← two_mul] at h
    exact h
  have e3 : export_audit_trail transport (2 * BATCH_LIMIT) (f + 1) =
      ([Action.fetch (2 * BATCH_LIMIT), Action.write q2], RunResult.done) :=
    export_stop transport (2 * BATCH_LIMIT) f p2 q2 h2 hp2 hl2
  rw [e1, e2, e3]

/-- C2: the export driver stops exactly when a page returns fewer events
than `BATCH_LIMIT` and otherwise increments the offset by `BATCH_LIMIT`
and fetches again; each page is normalized and written before the next
fetch, and for a fetch source returning pages of sizes
`[BATCH_LIMIT, BATCH_LIMIT, k < BATCH_LIMIT]` exactly three fetches are
issued, at offsets 0, `BATCH_LIMIT` and `2 * BATCH_LIMIT`, each page's
write preceding the next fetch in the run's trace. -/
theorem C2_pagination_driver :
    (∀ (transport : Nat → Except Unit Response) (offset f : Nat)
        (p : List RawEvent) (q : List FlatRecord),
      get_events_batch transport offset = .ok { events := some p } →
      parse_events p = some q → p.length < BATCH_LIMIT →
      export_audit_trail transport offset (f + 1) =
        ([Action.fetch offset, Action.write q], RunResult.done)) ∧
    (∀ (transport : Nat → Except Unit Response) (offset f : Nat)
        (p : List RawEvent) (q : List FlatRecord),
      get_events_batch transport offset = .ok { events := some p } →
      parse_events p = some q → ¬p.length < BATCH_LIMIT →
      export_audit_trail transport offset (f + 1) =
        (Action.fetch offset :: Action.write q ::
          (export_audit_trail transport (offset + BATCH_LIMIT) f).1,
         (export_audit_trail transport (offset + BATCH_LIMIT) f).2)) ∧
    (∀ (transport : Nat → Except Unit Response) (f : Nat)
        (p0 p1 p2 : List RawEvent) (q0 q1 q2 : List FlatRecord),
      get_events_batch transport 0 = .ok { events := some p0 } →
      get_events_batch transport BATCH_LIMIT = .ok { events := some p1 } →
      get_events_batch transport (2 * BATCH_LIMIT) = .ok { events := some p2 } →
      p0.length = BATCH_LIMIT → p1.length = BATCH_LIMIT → p2.length < BATCH_LIMIT →
      parse_events p0 = some q0 → parse_events p1 = some q1 → parse_events p2 = some q2 →
      export_audit_trail transport 0 (f + 3) =
        ([Action.fetch 0, Action.write q0, Action.fetch BATCH_LIMIT, Action.write q1,
          Action.fetch (2 * BATCH_LIMIT), Action.write q2], RunResult.done)) :=
  ⟨fun transport offset f p q hb hp hl => export_stop transport offset f p q hb hp hl,
   fun transport offset f p q hb hp hl => export_continue transport offset f p q hb hp hl,
   fun transport f p0 p1 p2 q0 q1 q2 h0 h1 h2 hl0 hl1 hl2 hp0 hp1 hp2 =>
     export_three_pages transport f p0 p1 p2 q0 q1 q2 h0 h1 h2 hl0 hl1 hl2 hp0 hp1 hp2⟩

theorem parse_events_replicate (n : Nat) (e : RawEvent) (r : FlatRecord)
    (h : parse_event e = some r) :
    parse_events (List.replicate n e) = some (List.replicate n r) := by
  induction n with
  | zero => rfl
  | succ n ih => simp [List.replicate_succ, parse_events, h, ih]

/-- C2 witness: the stub returning pages of sizes `[BATCH_LIMIT,
BATCH_LIMIT, 0]` produces the trace fetch 0, write, fetch `BATCH_LIMIT`,
write, fetch `2 * BATCH_LIMIT`, write, then completes. -/
theorem C2_witness :
    export_audit_trail w2transport 0 (0 + 3) =
      ([Action.fetch 0, Action.write fullRecords, Action.fetch BATCH_LIMIT,
        Action.write fullRecords, Action.fetch (2 * BATCH_LIMIT), Action.write []],
       RunResult.done) :=
  C2_pagination_driver.2.2 w2transport 0 fullPage fullPage [] fullRecords fullRecords []
    rfl rfl rfl (by simp [fullPage]) (by simp [fullPage]) (by decide)
    (parse_events_replicate BATCH_LIMIT ev0 r0 rfl)
    (parse_events_replicate BATCH_LIMIT ev0 r0 rfl) rfl

/-- C6 (amended): when the remote call raises at some offset (connection
failure, or a body that is not valid JSON), the error is not retried — a
single fetch is issued at the failing offset — and it terminates the
export, while the flat records of every previously completed page have
already been written to the sink before that fetch (partial output is
preserved, not rolled back). -/
theorem C6_transport_failure (transport : Nat → Except Unit Response)
    (p0 : List RawEvent) (q0 : List FlatRecord) (f : Nat) (err : TransportError)
    (h0 : get_events_batch transport 0 = .ok { events := some p0 })
    (hl : p0.length = BATCH_LIMIT)
    (hp : parse_events p0 = some q0)
    (herr : get_events_batch transport BATCH_LIMIT = .error err) :
    export_audit_trail transport 0 (f + 2) =
      ([Action.fetch 0, Action.write q0, Action.fetch BATCH_LIMIT],
       RunResult.transportError err) := by
  have e1 : export_audit_trail transport 0 (f + 2) =
      (Action.fetch 0 :: Action.write q0 ::
        (export_audit_trail transport BATCH_LIMIT (f + 1)).1,
       (export_audit_trail transport BATCH_LIMIT (f + 1)).2) := by
    have h := export_continue transport 0 (f + 1) p0 q0 h0 hp (by omega)
    rw [Nat.zero_add] at h
    exact h
  have e2 : export_audit_trail transport BATCH_LIMIT (f + 1) =
      ([Action.fetch BATCH_LIMIT], RunResult.transportError err) := by
    simp only [export_audit_trail]
    rw [herr]
  rw [e1, e2]

/-- C6 counterexample: a response with non-success HTTP status 500 whose
body is valid JSON (with no events key) does not surface any error — the
status is never inspected, the page is treated as empty, and the export
completes normally instead of terminating with a transport error. -/
theorem C6_counterexample :
    status500Transport 0 = .ok { status := 500, body := some { events := none } } ∧
    export_audit_trail status500Transport 0 1 =
      ([Action.fetch 0, Action.write []], RunResult.done) :=
  ⟨rfl, rfl⟩

/-- C6 witness: a transport succeeding with a full page at offset 0 and
raising at offset `BATCH_LIMIT` yields the trace fetch 0, write of the
first page's records, fetch `BATCH_LIMIT`, then the propagated error. -/
theorem C6_witness :
    export_audit_trail w6transport 0 (0 + 2) =
      ([Action.fetch 0, Action.write fullRecords, Action.fetch BATCH_LIMIT],
       RunResult.transportError TransportError.connectionError) :=
  C6_transport_failure w6transport fullPage fullRecords 0 TransportError.connectionError
    rfl (by simp [fullPage]) (parse_events_replicate BATCH_LIMIT ev0 r0 rfl) rfl

end AuditExport
